import Mathlib

/-!
Verification of the execution core of the `rjvm` bytecode virtual machine
(`src/vm/src/value_stack.rs`, `src/vm/src/array.rs`, `src/vm/src/vm.rs`).

The Rust code is shallowly embedded:
* `&mut self` methods become functions returning the result together with the
  new state, so that partial mutation before a failure is preserved (the Rust
  `?` operator returns early but keeps the mutations already performed);
* machine integers become `Nat`/`Int` with explicit bounds; raw byte storage
  becomes a function `Nat → Nat` holding byte values, written little-endian
  exactly as `std::ptr::write` of the corresponding width does on x86-64;
* `f32`/`f64` payloads are represented by their bit patterns (a `Nat`), since
  the VM core never computes with them — it only stores and reloads the bits;
* external collaborators that are not part of the three source files
  (the call-stack/frame executor, the class manager, the native registry) are
  modelled from the specification and passed as explicit parameters.
-/

deriving instance DecidableEq for Except

/-- Error type of the VM core, from `vm_error.rs` (variants used by the three
source files under verification). -/
inductive VmError where
  | ValidationException
  | ArrayIndexOutOfBoundsException
  | ClassNotFoundException (name : String)
  | NotImplemented
  deriving Repr, DecidableEq

/-- Primitive base kinds, from `rjvm_reader::field_type::BaseType`. -/
inductive BaseType where
  | Boolean
  | Byte
  | Char
  | Short
  | Int
  | Long
  | Float
  | Double
  deriving Repr, DecidableEq

/-- The VM's tagged value union, from `value.rs` (raw-storage flavour used by
`value_stack.rs` and `array.rs`).  Object and array references are modelled by
the numeric value of their data pointer; float payloads by their bit
patterns. -/
inductive Value where
  | Int (v : Int)
  | Long (v : Int)
  | Float (bits : Nat)
  | Double (bits : Nat)
  | Object (ptr : Nat)
  | Array (ptr : Nat)
  | Null
  deriving Repr, DecidableEq

/-- A value is wide when it is a 64-bit integral or floating value
(`Value::Long` or `Value::Double`); this is the test performed by
`ValueStack::pop2`. -/
def Value.isWide : Value → Bool
  | .Long _ => true
  | .Double _ => true
  | _ => false

namespace Stack

/-- The operand stack from `value_stack.rs`.  The Rust `Vec` stores the top of
the stack last; here `stack` stores the top of the stack first (`head` = top),
which is the same data up to list reversal.  `capacity` is the fixed maximum
size passed to `ValueStack::with_max_size`. -/
structure ValueStack where
  capacity : Nat
  stack : List Value
  deriving Repr, DecidableEq

/-- `ValueStack::with_max_size`. -/
def with_max_size (maxSize : Nat) : ValueStack :=
  { capacity := maxSize, stack := [] }

/-- `ValueStack::len`. -/
def len (s : ValueStack) : Nat :=
  s.stack.length

/-- `ValueStack::push`: fails (leaving the stack unchanged) when already at
capacity. -/
def push (s : ValueStack) (v : Value) : Except VmError Unit × ValueStack :=
  if s.stack.length < s.capacity then
    (.ok (), { s with stack := v :: s.stack })
  else
    (.error .ValidationException, s)

/-- `ValueStack::pop`: fails when empty. -/
def pop (s : ValueStack) : Except VmError Value × ValueStack :=
  match s.stack with
  | [] => (.error .ValidationException, s)
  | v :: rest => (.ok v, { s with stack := rest })

/-- Sequencing helper mirroring `self.pop()?`: on failure the error is
returned and the state reached so far is kept. -/
def popThen (s : ValueStack)
    (k : Value → ValueStack → Except VmError Unit × ValueStack) :
    Except VmError Unit × ValueStack :=
  match pop s with
  | (.error e, s1) => (.error e, s1)
  | (.ok v, s1) => k v s1

/-- Sequencing helper mirroring `self.push(x)?`. -/
def pushThen (s : ValueStack) (v : Value)
    (k : ValueStack → Except VmError Unit × ValueStack) :
    Except VmError Unit × ValueStack :=
  match push s v with
  | (.error e, s1) => (.error e, s1)
  | (.ok _, s1) => k s1

/-- `ValueStack::pop2`: pops the top entry; if it is wide it is returned as
is, otherwise a second entry is popped and discarded.  The second pop may fail
after the first one already removed an entry. -/
def pop2 (s : ValueStack) : Except VmError Value × ValueStack :=
  match pop s with
  | (.error e, s1) => (.error e, s1)
  | (.ok v, s1) =>
    match v with
    | .Long _ => (.ok v, s1)
    | .Double _ => (.ok v, s1)
    | _ =>
      match pop s1 with
      | (.error e, s2) => (.error e, s2)
      | (.ok _, s2) => (.ok v, s2)

/-- `ValueStack::truncate`: fails when the requested length exceeds the
capacity; otherwise `Vec::truncate` keeps the bottommost `l` entries and is a
no-op when `l` is not smaller than the current length.  In the head-is-top
representation the bottommost `l` entries are the last `l` entries. -/
def truncate (s : ValueStack) (l : Nat) : Except VmError Unit × ValueStack :=
  if l > s.capacity then
    (.error .ValidationException, s)
  else
    (.ok (), { s with stack := s.stack.drop (s.stack.length - l) })

/-- `ValueStack::get`. -/
def get (s : ValueStack) (index : Nat) : Option Value :=
  s.stack.get? (s.stack.length - 1 - index)

/-- `ValueStack::dup`: capacity check, then clones the top (`Vec::last`) and
pushes it directly on the `Vec`. -/
def dup (s : ValueStack) : Except VmError Unit × ValueStack :=
  if s.stack.length < s.capacity then
    match s.stack with
    | [] => (.error .ValidationException, s)
    | head :: _ => (.ok (), { s with stack := head :: s.stack })
  else
    (.error .ValidationException, s)

/-- `ValueStack::dup_x1`. -/
def dup_x1 (s : ValueStack) : Except VmError Unit × ValueStack :=
  if s.stack.length < s.capacity then
    popThen s fun v1 s =>
    popThen s fun v2 s =>
    pushThen s v1 fun s =>
    pushThen s v2 fun s =>
    push s v1
  else
    (.error .ValidationException, s)

/-- `ValueStack::dup_x2`. -/
def dup_x2 (s : ValueStack) : Except VmError Unit × ValueStack :=
  if s.stack.length < s.capacity then
    popThen s fun v1 s =>
    popThen s fun v2 s =>
    popThen s fun v3 s =>
    pushThen s v1 fun s =>
    pushThen s v3 fun s =>
    pushThen s v2 fun s =>
    push s v1
  else
    (.error .ValidationException, s)

/-- `ValueStack::dup2`. -/
def dup2 (s : ValueStack) : Except VmError Unit × ValueStack :=
  if s.stack.length < s.capacity then
    popThen s fun v1 s =>
    popThen s fun v2 s =>
    pushThen s v2 fun s =>
    pushThen s v1 fun s =>
    pushThen s v2 fun s =>
    push s v1
  else
    (.error .ValidationException, s)

/-- `ValueStack::dup2_x1`. -/
def dup2_x1 (s : ValueStack) : Except VmError Unit × ValueStack :=
  if s.stack.length < s.capacity then
    popThen s fun v1 s =>
    popThen s fun v2 s =>
    popThen s fun v3 s =>
    pushThen s v2 fun s =>
    pushThen s v1 fun s =>
    pushThen s v3 fun s =>
    pushThen s v2 fun s =>
    push s v1
  else
    (.error .ValidationException, s)

/-- `ValueStack::dup2_x2`. -/
def dup2_x2 (s : ValueStack) : Except VmError Unit × ValueStack :=
  if s.stack.length < s.capacity then
    popThen s fun v1 s =>
    popThen s fun v2 s =>
    popThen s fun v3 s =>
    popThen s fun v4 s =>
    pushThen s v2 fun s =>
    pushThen s v1 fun s =>
    pushThen s v4 fun s =>
    pushThen s v3 fun s =>
    pushThen s v2 fun s =>
    push s v1
  else
    (.error .ValidationException, s)

/-- `ValueStack::swap` (note: the source has no capacity pre-check here). -/
def swap (s : ValueStack) : Except VmError Unit × ValueStack :=
  popThen s fun v1 s =>
  popThen s fun v2 s =>
  pushThen s v1 fun s =>
  push s v2

end Stack

example :
    Stack.dup_x2 ⟨4, [Value.Int 1, Value.Int 2, Value.Int 3]⟩ =
      (.ok (), ⟨4, [Value.Int 1, Value.Int 2, Value.Int 3, Value.Int 1]⟩) := by
  decide

example :
    Stack.pop2 ⟨3, [Value.Int 1, Value.Int 2, Value.Long 3]⟩ =
      (.ok (Value.Int 1), ⟨3, [Value.Long 3]⟩) := by
  decide

example :
    Stack.pop2 ⟨3, [Value.Int 1]⟩ =
      (.error VmError.ValidationException, ⟨3, []⟩) := by
  decide

example :
    Stack.truncate ⟨2, [Value.Int 1]⟩ 2 = (.ok (), ⟨2, [Value.Int 1]⟩) := by
  decide

/-- C3: each member of the duplicate/swap family, run on a stack with enough
operands and enough remaining capacity for the entries it adds, succeeds and
performs exactly the documented permutation.  Lists are written top-first, so
the spec's `[.., b, a]` (rightmost = top) is `a :: b :: rest` here. -/
theorem stack_dup_swap_permutations (cap : Nat) (a b c d : Value)
    (rest : List Value) :
    (rest.length + 2 ≤ cap →
      Stack.dup ⟨cap, a :: rest⟩ = (.ok (), ⟨cap, a :: a :: rest⟩))
    ∧ (rest.length + 3 ≤ cap →
      Stack.dup_x1 ⟨cap, a :: b :: rest⟩ =
        (.ok (), ⟨cap, a :: b :: a :: rest⟩))
    ∧ (rest.length + 4 ≤ cap →
      Stack.dup_x2 ⟨cap, a :: b :: c :: rest⟩ =
        (.ok (), ⟨cap, a :: b :: c :: a :: rest⟩))
    ∧ (rest.length + 4 ≤ cap →
      Stack.dup2 ⟨cap, a :: b :: rest⟩ =
        (.ok (), ⟨cap, a :: b :: a :: b :: rest⟩))
    ∧ (rest.length + 5 ≤ cap →
      Stack.dup2_x1 ⟨cap, a :: b :: c :: rest⟩ =
        (.ok (), ⟨cap, a :: b :: c :: a :: b :: rest⟩))
    ∧ (rest.length + 6 ≤ cap →
      Stack.dup2_x2 ⟨cap, a :: b :: c :: d :: rest⟩ =
        (.ok (), ⟨cap, a :: b :: c :: d :: a :: b :: rest⟩))
    ∧ (rest.length + 2 ≤ cap →
      Stack.swap ⟨cap, a :: b :: rest⟩ = (.ok (), ⟨cap, b :: a :: rest⟩)) := by
  refine ⟨?_, ?_, ?_, ?_, ?_, ?_, ?_⟩ <;> intro h
  · have h0 : rest.length + 1 < cap := by omega
    simp [Stack.dup, h0]
  · have h0 : rest.length < cap := by omega
    have h1 : rest.length + 1 < cap := by omega
    have h2 : rest.length + 1 + 1 < cap := by omega
    simp [Stack.dup_x1, Stack.popThen, Stack.pushThen, Stack.pop, Stack.push,
      h0, h1, h2]
  · have h0 : rest.length < cap := by omega
    have h1 : rest.length + 1 < cap := by omega
    have h2 : rest.length + 1 + 1 < cap := by omega
    have h3 : rest.length + 1 + 1 + 1 < cap := by omega
    simp [Stack.dup_x2, Stack.popThen, Stack.pushThen, Stack.pop, Stack.push,
      h0, h1, h2, h3]
  · have h0 : rest.length < cap := by omega
    have h1 : rest.length + 1 < cap := by omega
    have h2 : rest.length + 1 + 1 < cap := by omega
    have h3 : rest.length + 1 + 1 + 1 < cap := by omega
    simp [Stack.dup2, Stack.popThen, Stack.pushThen, Stack.pop, Stack.push,
      h0, h1, h2, h3]
  · have h0 : rest.length < cap := by omega
    have h1 : rest.length + 1 < cap := by omega
    have h2 : rest.length + 1 + 1 < cap := by omega
    have h3 : rest.length + 1 + 1 + 1 < cap := by omega
    have h4 : rest.length + 1 + 1 + 1 + 1 < cap := by omega
    simp [Stack.dup2_x1, Stack.popThen, Stack.pushThen, Stack.pop, Stack.push,
      h0, h1, h2, h3, h4]
  · have h0 : rest.length < cap := by omega
    have h1 : rest.length + 1 < cap := by omega
    have h2 : rest.length + 1 + 1 < cap := by omega
    have h3 : rest.length + 1 + 1 + 1 < cap := by omega
    have h4 : rest.length + 1 + 1 + 1 + 1 < cap := by omega
    have h5 : rest.length + 1 + 1 + 1 + 1 + 1 < cap := by omega
    simp [Stack.dup2_x2, Stack.popThen, Stack.pushThen, Stack.pop, Stack.push,
      h0, h1, h2, h3, h4, h5]
  · have h0 : rest.length < cap := by omega
    have h1 : rest.length + 1 < cap := by omega
    simp [Stack.swap, Stack.popThen, Stack.pushThen, Stack.pop, Stack.push,
      h0, h1]

/-- Witness for C3: the seven permutations at concrete inputs (capacity 6,
values 1–4, empty remainder). -/
theorem stack_dup_swap_permutations_witness :
    Stack.dup ⟨6, [Value.Int 1]⟩ = (.ok (), ⟨6, [Value.Int 1, Value.Int 1]⟩)
    ∧ Stack.dup_x1 ⟨6, [Value.Int 1, Value.Int 2]⟩ =
      (.ok (), ⟨6, [Value.Int 1, Value.Int 2, Value.Int 1]⟩)
    ∧ Stack.dup_x2 ⟨6, [Value.Int 1, Value.Int 2, Value.Int 3]⟩ =
      (.ok (), ⟨6, [Value.Int 1, Value.Int 2, Value.Int 3, Value.Int 1]⟩)
    ∧ Stack.dup2 ⟨6, [Value.Int 1, Value.Int 2]⟩ =
      (.ok (), ⟨6, [Value.Int 1, Value.Int 2, Value.Int 1, Value.Int 2]⟩)
    ∧ Stack.dup2_x1 ⟨6, [Value.Int 1, Value.Int 2, Value.Int 3]⟩ =
      (.ok (), ⟨6, [Value.Int 1, Value.Int 2, Value.Int 3, Value.Int 1,
        Value.Int 2]⟩)
    ∧ Stack.dup2_x2 ⟨6, [Value.Int 1, Value.Int 2, Value.Int 3, Value.Int 4]⟩ =
      (.ok (), ⟨6, [Value.Int 1, Value.Int 2, Value.Int 3, Value.Int 4,
        Value.Int 1, Value.Int 2]⟩)
    ∧ Stack.swap ⟨6, [Value.Int 1, Value.Int 2]⟩ =
      (.ok (), ⟨6, [Value.Int 2, Value.Int 1]⟩) := by
  have h := stack_dup_swap_permutations 6 (Value.Int 1) (Value.Int 2)
    (Value.Int 3) (Value.Int 4) []
  exact ⟨h.1 (by decide), h.2.1 (by decide), h.2.2.1 (by decide),
    h.2.2.2.1 (by decide), h.2.2.2.2.1 (by decide),
    h.2.2.2.2.2.1 (by decide), h.2.2.2.2.2.2 (by decide)⟩

/-- C6: `pop2` pops a single entry and returns it when the top is wide
(`Long`/`Double`); otherwise it pops two entries and returns the one that was
on top. -/
theorem stack_pop2_wide_one_narrow_two (cap : Nat) (v w : Value)
    (rest : List Value) :
    (v.isWide = true →
      Stack.pop2 ⟨cap, v :: rest⟩ = (.ok v, ⟨cap, rest⟩))
    ∧ (v.isWide = false →
      Stack.pop2 ⟨cap, v :: w :: rest⟩ = (.ok v, ⟨cap, rest⟩)) := by
  constructor <;> intro h <;>
    cases v <;> simp_all [Stack.pop2, Stack.pop, Value.isWide]

/-- Witness for C6: `pop2` at a wide top (`Long 3`) and at a narrow top
(`Int 2` over `Int 1`). -/
theorem stack_pop2_wide_one_narrow_two_witness :
    Stack.pop2 ⟨3, [Value.Long 3, Value.Int 9]⟩ =
      (.ok (Value.Long 3), ⟨3, [Value.Int 9]⟩)
    ∧ Stack.pop2 ⟨3, [Value.Int 2, Value.Int 1, Value.Int 9]⟩ =
      (.ok (Value.Int 2), ⟨3, [Value.Int 9]⟩) := by
  exact ⟨(stack_pop2_wide_one_narrow_two 3 (Value.Long 3) (Value.Int 9)
      [Value.Int 9]).1 (by decide),
    (stack_pop2_wide_one_narrow_two 3 (Value.Int 2) (Value.Int 1)
      [Value.Int 9]).2 (by decide)⟩

/-- C10: `pop2` on a stack holding exactly one narrow entry fails, but the
failure is not atomic: the first inner `pop` already removed the entry, so
the resulting stack is empty. -/
theorem stack_pop2_single_narrow_not_atomic (cap : Nat) (v : Value)
    (h : v.isWide = false) :
    Stack.pop2 ⟨cap, [v]⟩ = (.error .ValidationException, ⟨cap, []⟩) := by
  cases v <;> simp_all [Stack.pop2, Stack.pop, Value.isWide]

/-- Witness for C10 at the narrow value `Int 5`. -/
theorem stack_pop2_single_narrow_not_atomic_witness :
    Stack.pop2 ⟨3, [Value.Int 5]⟩ =
      (.error VmError.ValidationException, ⟨3, []⟩) :=
  stack_pop2_single_narrow_not_atomic 3 (Value.Int 5) (by decide)

/-- C8 counterexample: `truncate 2` on a stack of size 1 with capacity 2
succeeds but leaves the size at 1 — it does not reset the size to 2 as the
claim states for the `n` greater than current size case. -/
theorem stack_truncate_counterexample :
    (Stack.truncate ⟨2, [Value.Int 1]⟩ 2).1 = .ok ()
    ∧ ((Stack.truncate ⟨2, [Value.Int 1]⟩ 2).2).stack.length ≠ 2 := by
  decide

/-- C8 as amended: `truncate n` fails (without touching the stack) iff `n`
exceeds the capacity; otherwise it succeeds, keeping the bottommost `n`
entries, so the new size is `min n` (old size): it reduces the size to `n`
when `n ≤` size and leaves the stack unchanged when `n ≥` size. -/
theorem stack_truncate_clamps (s : Stack.ValueStack) (n : Nat) :
    (s.capacity < n → Stack.truncate s n = (.error .ValidationException, s))
    ∧ (n ≤ s.capacity →
      (Stack.truncate s n).1 = .ok ()
      ∧ (Stack.truncate s n).2.stack = s.stack.drop (s.stack.length - n)
      ∧ (Stack.truncate s n).2.stack.length = min n s.stack.length
      ∧ (s.stack.length ≤ n → (Stack.truncate s n).2 = s)) := by
  constructor
  · intro h
    simp [Stack.truncate, h]
  · intro h
    have h0 : ¬ n > s.capacity := by omega
    refine ⟨by simp [Stack.truncate, h0], by simp [Stack.truncate, h0],
      ?_, ?_⟩
    · simp [Stack.truncate, h0]
      omega
    · intro h1
      have h2 : s.stack.length - n = 0 := by omega
      simp [Stack.truncate, h0, h2]

/-- Witness for C8 as amended: a stack of size 3 and capacity 4, truncated to
1 (shrinks), to 4 (no-op since 4 > size), and to 5 (fails, 5 > capacity). -/
theorem stack_truncate_clamps_witness :
    Stack.truncate ⟨4, [Value.Int 3, Value.Int 2, Value.Int 1]⟩ 5 =
      (.error VmError.ValidationException,
        ⟨4, [Value.Int 3, Value.Int 2, Value.Int 1]⟩)
    ∧ (Stack.truncate ⟨4, [Value.Int 3, Value.Int 2, Value.Int 1]⟩ 1).2.stack
      = [Value.Int 1]
    ∧ (Stack.truncate ⟨4, [Value.Int 3, Value.Int 2, Value.Int 1]⟩ 4).2 =
      ⟨4, [Value.Int 3, Value.Int 2, Value.Int 1]⟩ := by
  refine ⟨(stack_truncate_clamps ⟨4, [Value.Int 3, Value.Int 2, Value.Int 1]⟩
      5).1 (by decide), ?_, ?_⟩
  · have h := (stack_truncate_clamps
      ⟨4, [Value.Int 3, Value.Int 2, Value.Int 1]⟩ 1).2 (by decide)
    rw [h.2.1]
    decide
  · exact ((stack_truncate_clamps
      ⟨4, [Value.Int 3, Value.Int 2, Value.Int 1]⟩ 4).2 (by decide)).2.2.2
      (by decide)

namespace Arr

/-- Array element type tag from `array_entry_type.rs`: a primitive base kind,
an object reference (parameterized by its component class), or a nested
array. -/
inductive ArrayEntryType where
  | Base (b : BaseType)
  | Object (classId : Nat)
  | Array
  deriving Repr, DecidableEq

/-- Little-endian read of `k` bytes starting at offset `off`, as
`std::ptr::read` of a `k`-byte integer does on x86-64. -/
def readLE (m : Nat → Nat) : Nat → Nat → Nat
  | _, 0 => 0
  | off, k + 1 => m off + 256 * readLE m (off + 1) k

/-- Little-endian write of the low `k` bytes of `v` at offset `off`, as
`std::ptr::write` of a `k`-byte integer does on x86-64. -/
def writeLE (m : Nat → Nat) (off k v : Nat) : Nat → Nat :=
  fun a => if off ≤ a ∧ a < off + k then v / 256 ^ (a - off) % 256 else m a

/-- Two's-complement reading of a 32-bit word as a signed `i32`. -/
def toI32 (n : Nat) : Int :=
  if n < 2 ^ 31 then (n : Int) else (n : Int) - 2 ^ 32

/-- Two's-complement reading of a 64-bit word as a signed `i64`. -/
def toI64 (n : Nat) : Int :=
  if n < 2 ^ 63 then (n : Int) else (n : Int) - 2 ^ 64

/-- Unsigned 32-bit pattern of an `i32`. -/
def intToU32 (v : Int) : Nat := (v % (2 ^ 32 : Int)).toNat

/-- Unsigned 64-bit pattern of an `i64`. -/
def intToU64 (v : Int) : Nat := (v % (2 ^ 64 : Int)).toNat

/-- A managed array from `array.rs`.  `len` and `elementsType` model the two
header fields, written once by `Array::new` and never changed afterwards;
`mem a` models the byte of element storage at offset `HEADER_LEN + a` from
the array's data pointer, so element slot `i` occupies offsets
`i * 8 .. i * 8 + 8` of `mem`. -/
structure RArray where
  len : Nat
  elementsType : ArrayEntryType
  mem : Nat → Nat

/-- `Array::get_item_at`: bounds check, then reinterpretation of the 8-byte
slot according to the element-type tag (narrow kinds read only the low 4
bytes; a zero word in a reference slot decodes to null). -/
def get_item_at (a : RArray) (index : Nat) : Except VmError Value :=
  if index ≥ a.len then
    .error .ArrayIndexOutOfBoundsException
  else
    .ok (match a.elementsType with
      | .Base .Boolean | .Base .Byte | .Base .Char | .Base .Short
      | .Base .Int =>
        .Int (toI32 (readLE a.mem (index * 8) 4))
      | .Base .Long => .Long (toI64 (readLE a.mem (index * 8) 8))
      | .Base .Float => .Float (readLE a.mem (index * 8) 4)
      | .Base .Double => .Double (readLE a.mem (index * 8) 8)
      | .Object _ =>
        match readLE a.mem (index * 8) 8 with
        | 0 => .Null
        | p => .Object p
      | .Array => .Array (readLE a.mem (index * 8) 8))

/-- `Array::set_item_at`: bounds check, then type-validation of the value's
variant against the element-type tag, then a write of the value's width
(4 bytes for the int family and float, 8 bytes for long, double and
references; null stores an 8-byte zero word). -/
def set_item_at (a : RArray) (index : Nat) (value : Value) :
    Except VmError RArray :=
  if index ≥ a.len then
    .error .ArrayIndexOutOfBoundsException
  else
    match a.elementsType with
    | .Base .Boolean | .Base .Byte | .Base .Char | .Base .Short
    | .Base .Int =>
      match value with
      | .Int n => .ok { a with mem := writeLE a.mem (index * 8) 4 (intToU32 n) }
      | _ => .error .ValidationException
    | .Base .Long =>
      match value with
      | .Long n => .ok { a with mem := writeLE a.mem (index * 8) 8 (intToU64 n) }
      | _ => .error .ValidationException
    | .Base .Float =>
      match value with
      | .Float bits => .ok { a with mem := writeLE a.mem (index * 8) 4 bits }
      | _ => .error .ValidationException
    | .Base .Double =>
      match value with
      | .Double bits => .ok { a with mem := writeLE a.mem (index * 8) 8 bits }
      | _ => .error .ValidationException
    | .Object _ =>
      match value with
      | .Object p => .ok { a with mem := writeLE a.mem (index * 8) 8 p }
      | .Null => .ok { a with mem := writeLE a.mem (index * 8) 8 0 }
      | _ => .error .ValidationException
    | .Array =>
      match value with
      | .Array p => .ok { a with mem := writeLE a.mem (index * 8) 8 p }
      | _ => .error .ValidationException

/-- The five base kinds that `array.rs` groups into one 32-bit integral
match arm. -/
def isIntKind : BaseType → Bool
  | .Boolean | .Byte | .Char | .Short | .Int => true
  | _ => false

/-- The number of bytes `set_item_at` writes for a slot of the given tag:
4 for the narrow 32-bit kinds (int family and float), 8 for the rest. -/
def slotWidth : ArrayEntryType → Nat
  | .Base .Boolean | .Base .Byte | .Base .Char | .Base .Short
  | .Base .Int | .Base .Float => 4
  | _ => 8

/-- The word whose low `slotWidth` bytes `set_item_at` stores for a matching
tag/value pair (unused tag/value combinations map to 0). -/
def encodeWord : ArrayEntryType → Value → Nat
  | .Base .Boolean, .Int n | .Base .Byte, .Int n | .Base .Char, .Int n
  | .Base .Short, .Int n | .Base .Int, .Int n => intToU32 n
  | .Base .Long, .Long n => intToU64 n
  | .Base .Float, .Float bits => bits
  | .Base .Double, .Double bits => bits
  | .Object _, .Object p => p
  | .Array, .Array p => p
  | _, _ => 0

theorem writeLE_outside (m : Nat → Nat) (off k v a : Nat)
    (h : a < off ∨ off + k ≤ a) : writeLE m off k v a = m a := by
  unfold writeLE
  rw [if_neg]
  omega

theorem writeLE_inside (m : Nat → Nat) (off k v a : Nat)
    (h1 : off ≤ a) (h2 : a < off + k) :
    writeLE m off k v a = v / 256 ^ (a - off) % 256 := by
  unfold writeLE
  rw [if_pos ⟨h1, h2⟩]

theorem readLE_writeLE (m : Nat → Nat) (off v : Nat) :
    ∀ (k j : Nat),
      readLE (writeLE m off (j + k) v) (off + j) k = v / 256 ^ j % 256 ^ k := by
  intro k
  induction k with
  | zero => intro j; simp [readLE, Nat.mod_one]
  | succ k ih =>
    intro j
    have hw : writeLE m off (j + (k + 1)) v (off + j) = v / 256 ^ j % 256 := by
      rw [writeLE_inside m off (j + (k + 1)) v (off + j)
        (Nat.le_add_right off j) (by omega)]
      rw [Nat.add_sub_cancel_left]
    have e1 : writeLE m off (j + (k + 1)) v = writeLE m off ((j + 1) + k) v := by
      rw [show j + (k + 1) = (j + 1) + k by omega]
    calc readLE (writeLE m off (j + (k + 1)) v) (off + j) (k + 1)
        = writeLE m off (j + (k + 1)) v (off + j)
          + 256 * readLE (writeLE m off (j + (k + 1)) v) (off + (j + 1)) k :=
        rfl
      _ = v / 256 ^ j % 256
          + 256 * readLE (writeLE m off ((j + 1) + k) v) (off + (j + 1)) k := by
        rw [hw, e1]
      _ = v / 256 ^ j % 256 + 256 * (v / 256 ^ (j + 1) % 256 ^ k) := by
        rw [ih (j + 1)]
      _ = v / 256 ^ j % 256 ^ (k + 1) := by
        rw [pow_succ 256 j, ← Nat.div_div_eq_div_mul]
        conv_rhs => rw [pow_succ, mul_comm, Nat.mod_mul]

theorem readLE_writeLE_eq (m : Nat → Nat) (off k v : Nat) :
    readLE (writeLE m off k v) off k = v % 256 ^ k := by
  have h := readLE_writeLE m off v k 0
  simpa using h

end Arr

theorem toI32_roundtrip (n : Int) (h1 : -(2 ^ 31) ≤ n) (h2 : n < 2 ^ 31) :
    Arr.toI32 (Arr.intToU32 n % 4294967296) = n := by
  unfold Arr.toI32 Arr.intToU32
  have e32 : (2 : Int) ^ 32 = 4294967296 := by norm_num
  have e31n : (2 : Nat) ^ 31 = 2147483648 := by norm_num
  have e31 : (2 : Int) ^ 31 = 2147483648 := by norm_num
  rw [e31] at h2
  rw [e31] at h1
  rw [e32, e31n]
  split_ifs with h <;> omega

theorem toI64_roundtrip (n : Int) (h1 : -(2 ^ 63) ≤ n) (h2 : n < 2 ^ 63) :
    Arr.toI64 (Arr.intToU64 n % 18446744073709551616) = n := by
  unfold Arr.toI64 Arr.intToU64
  have e64 : (2 : Int) ^ 64 = 18446744073709551616 := by norm_num
  have e63n : (2 : Nat) ^ 63 = 9223372036854775808 := by norm_num
  have e63 : (2 : Int) ^ 63 = 9223372036854775808 := by norm_num
  rw [e63] at h2
  rw [e63] at h1
  rw [e64, e63n]
  split_ifs with h <;> omega

/-- C4: `get_item_at i` and `set_item_at i _` fail with the out-of-bounds
error exactly when `i ≥ len`; every in-range index passes the bounds check
(`get` then succeeds, `set` can only fail with the type-validation error). -/
theorem array_bounds_check (a : Arr.RArray) (i : Nat) :
    (Arr.get_item_at a i = .error .ArrayIndexOutOfBoundsException ↔ a.len ≤ i)
    ∧ (i < a.len → ∃ v, Arr.get_item_at a i = .ok v)
    ∧ ∀ w, (Arr.set_item_at a i w = .error .ArrayIndexOutOfBoundsException
        ↔ a.len ≤ i) := by
  refine ⟨?_, ?_, ?_⟩
  · by_cases h : a.len ≤ i
    · simp [Arr.get_item_at, h]
    · simp [Arr.get_item_at, h]
  · intro h
    have h2 : ¬ a.len ≤ i := by omega
    simp [Arr.get_item_at, h2]
  · intro w
    by_cases h : a.len ≤ i
    · simp [Arr.set_item_at, h]
    · obtain ⟨len, ty, mem⟩ := a
      cases ty with
      | Base b => cases b <;> cases w <;> simp [Arr.set_item_at, h]
      | Object cid => cases w <;> simp [Arr.set_item_at, h]
      | Array => cases w <;> simp [Arr.set_item_at, h]

/-- Witness for C4 on an int array of length 5: index 5 (the boundary) fails
for both accessors, index 3 passes the bounds check. -/
theorem array_bounds_check_witness :
    (Arr.get_item_at ⟨5, .Base .Int, fun _ => 0⟩ 5 =
      .error .ArrayIndexOutOfBoundsException)
    ∧ (∃ v, Arr.get_item_at ⟨5, .Base .Int, fun _ => 0⟩ 3 = .ok v)
    ∧ (Arr.set_item_at ⟨5, .Base .Int, fun _ => 0⟩ 5 (Value.Int 42) =
      .error .ArrayIndexOutOfBoundsException) :=
  ⟨(array_bounds_check ⟨5, .Base .Int, fun _ => 0⟩ 5).1.mpr (by decide),
    (array_bounds_check ⟨5, .Base .Int, fun _ => 0⟩ 3).2.1 (by decide),
    ((array_bounds_check ⟨5, .Base .Int, fun _ => 0⟩ 5).2.2
      (Value.Int 42)).mpr (by decide)⟩

/-- C5: for every supported element-type tag and every value of the matching
variant (within the machine range of the corresponding Rust type, with real
references being nonzero pointers), `set_item_at i v` followed by
`get_item_at i` succeeds and returns `v`; a stored null decodes back to
null. -/
theorem array_set_get_roundtrip (a : Arr.RArray) (i : Nat) (hi : i < a.len) :
    (∀ (b : BaseType) (n : Int), a.elementsType = .Base b →
      Arr.isIntKind b = true → -(2 ^ 31) ≤ n → n < 2 ^ 31 →
      (Arr.set_item_at a i (.Int n)).bind (fun a2 => Arr.get_item_at a2 i) =
        .ok (.Int n))
    ∧ (∀ (n : Int), a.elementsType = .Base .Long →
      -(2 ^ 63) ≤ n → n < 2 ^ 63 →
      (Arr.set_item_at a i (.Long n)).bind (fun a2 => Arr.get_item_at a2 i) =
        .ok (.Long n))
    ∧ (∀ (bits : Nat), a.elementsType = .Base .Float → bits < 2 ^ 32 →
      (Arr.set_item_at a i (.Float bits)).bind
        (fun a2 => Arr.get_item_at a2 i) = .ok (.Float bits))
    ∧ (∀ (bits : Nat), a.elementsType = .Base .Double → bits < 2 ^ 64 →
      (Arr.set_item_at a i (.Double bits)).bind
        (fun a2 => Arr.get_item_at a2 i) = .ok (.Double bits))
    ∧ (∀ (cid p : Nat), a.elementsType = .Object cid → 0 < p → p < 2 ^ 64 →
      (Arr.set_item_at a i (.Object p)).bind
        (fun a2 => Arr.get_item_at a2 i) = .ok (.Object p))
    ∧ (∀ (cid : Nat), a.elementsType = .Object cid →
      (Arr.set_item_at a i .Null).bind (fun a2 => Arr.get_item_at a2 i) =
        .ok .Null)
    ∧ (∀ (p : Nat), a.elementsType = .Array → p < 2 ^ 64 →
      (Arr.set_item_at a i (.Array p)).bind
        (fun a2 => Arr.get_item_at a2 i) = .ok (.Array p)) := by
  have hge : ¬ i ≥ a.len := by omega
  have hge2 : ¬ a.len ≤ i := by omega
  have e8 : (256 : Nat) ^ 8 = 2 ^ 64 := by norm_num
  refine ⟨?_, ?_, ?_, ?_, ?_, ?_, ?_⟩
  · intro b n hb hk h1 h2
    cases b
    · simp [Arr.set_item_at, Arr.get_item_at, hb, hge, hge2, Except.bind,
        Arr.readLE_writeLE_eq, toI32_roundtrip n h1 h2]
    · simp [Arr.set_item_at, Arr.get_item_at, hb, hge, hge2, Except.bind,
        Arr.readLE_writeLE_eq, toI32_roundtrip n h1 h2]
    · simp [Arr.set_item_at, Arr.get_item_at, hb, hge, hge2, Except.bind,
        Arr.readLE_writeLE_eq, toI32_roundtrip n h1 h2]
    · simp [Arr.set_item_at, Arr.get_item_at, hb, hge, hge2, Except.bind,
        Arr.readLE_writeLE_eq, toI32_roundtrip n h1 h2]
    · simp [Arr.set_item_at, Arr.get_item_at, hb, hge, hge2, Except.bind,
        Arr.readLE_writeLE_eq, toI32_roundtrip n h1 h2]
    · exact absurd hk (by decide)
    · exact absurd hk (by decide)
    · exact absurd hk (by decide)
  · intro n hb h1 h2
    simp [Arr.set_item_at, Arr.get_item_at, hb, hge, hge2, Except.bind,
      Arr.readLE_writeLE_eq, toI64_roundtrip n h1 h2]
  · intro bits hb h1
    simp [Arr.set_item_at, Arr.get_item_at, hb, hge, hge2, Except.bind,
      Arr.readLE_writeLE_eq]
    omega
  · intro bits hb h1
    simp [Arr.set_item_at, Arr.get_item_at, hb, hge, hge2, Except.bind,
      Arr.readLE_writeLE_eq]
    omega
  · intro cid p hb hp h1
    obtain ⟨q, rfl⟩ : ∃ q, p = q + 1 := ⟨p - 1, by omega⟩
    have hmod : (q + 1) % 18446744073709551616 = q + 1 := by omega
    simp [Arr.set_item_at, Arr.get_item_at, hb, hge, hge2, Except.bind,
      Arr.readLE_writeLE_eq, hmod]
  · intro cid hb
    simp [Arr.set_item_at, Arr.get_item_at, hb, hge, hge2, Except.bind,
      Arr.readLE_writeLE_eq]
  · intro p hb h1
    simp [Arr.set_item_at, Arr.get_item_at, hb, hge, hge2, Except.bind,
      Arr.readLE_writeLE_eq]
    omega

/-- Witness for C5: round-trips at concrete arrays for every tag — int 42,
long -1, float/double bit patterns, a nonzero object pointer, null, and an
array pointer. -/
theorem array_set_get_roundtrip_witness :
    (Arr.set_item_at ⟨5, .Base .Int, fun _ => 0⟩ 3 (.Int 42)).bind
      (fun a2 => Arr.get_item_at a2 3) = .ok (.Int 42)
    ∧ (Arr.set_item_at ⟨2, .Base .Long, fun _ => 0⟩ 1 (.Long (-1))).bind
      (fun a2 => Arr.get_item_at a2 1) = .ok (.Long (-1))
    ∧ (Arr.set_item_at ⟨1, .Base .Float, fun _ => 0⟩ 0
        (.Float 1078530011)).bind (fun a2 => Arr.get_item_at a2 0) =
      .ok (.Float 1078530011)
    ∧ (Arr.set_item_at ⟨1, .Base .Double, fun _ => 0⟩ 0
        (.Double 4614256656552045848)).bind (fun a2 => Arr.get_item_at a2 0) =
      .ok (.Double 4614256656552045848)
    ∧ (Arr.set_item_at ⟨1, .Object 9, fun _ => 0⟩ 0 (.Object 8)).bind
      (fun a2 => Arr.get_item_at a2 0) = .ok (.Object 8)
    ∧ (Arr.set_item_at ⟨1, .Object 9, fun _ => 0⟩ 0 .Null).bind
      (fun a2 => Arr.get_item_at a2 0) = .ok .Null
    ∧ (Arr.set_item_at ⟨1, .Array, fun _ => 0⟩ 0 (.Array 16)).bind
      (fun a2 => Arr.get_item_at a2 0) = .ok (.Array 16) := by
  refine ⟨?_, ?_, ?_, ?_, ?_, ?_, ?_⟩
  · exact (array_set_get_roundtrip _ 3 (by norm_num)).1 .Int 42 rfl rfl
      (by norm_num) (by norm_num)
  · exact (array_set_get_roundtrip _ 1 (by norm_num)).2.1 (-1) rfl
      (by norm_num) (by norm_num)
  · exact (array_set_get_roundtrip _ 0 (by norm_num)).2.2.1 1078530011 rfl
      (by norm_num)
  · exact (array_set_get_roundtrip _ 0 (by norm_num)).2.2.2.1
      4614256656552045848 rfl (by norm_num)
  · exact (array_set_get_roundtrip _ 0 (by norm_num)).2.2.2.2.1 9 8 rfl
      (by norm_num) (by norm_num)
  · exact (array_set_get_roundtrip _ 0 (by norm_num)).2.2.2.2.2.1 9 rfl
  · exact (array_set_get_roundtrip _ 0 (by norm_num)).2.2.2.2.2.2 16 rfl
      (by norm_num)

/-- C7 counterexample: writing `Int 5` at index 0 of two int-tagged arrays of
length 1 that differ only in the byte at slot offset 4 leaves that byte
different after the write — so `set_item_at` does not overwrite all 8 bytes
of the slot for the narrow kinds (it writes only the low 4). -/
theorem array_set_eight_byte_counterexample :
    ¬ (∀ (a b : Arr.RArray) (i : Nat) (v : Value) (a2 b2 : Arr.RArray),
        a.len = b.len → a.elementsType = b.elementsType →
        Arr.set_item_at a i v = .ok a2 → Arr.set_item_at b i v = .ok b2 →
        ∀ addr, i * 8 ≤ addr → addr < i * 8 + 8 →
          a2.mem addr = b2.mem addr) := by
  intro hcl
  have h := hcl ⟨1, .Base .Int, fun a => if a = 4 then 7 else 0⟩
    ⟨1, .Base .Int, fun _ => 0⟩ 0 (Value.Int 5)
    ⟨1, .Base .Int,
      Arr.writeLE (fun a => if a = 4 then 7 else 0) 0 4 (Arr.intToU32 5)⟩
    ⟨1, .Base .Int, Arr.writeLE (fun _ => 0) 0 4 (Arr.intToU32 5)⟩
    rfl rfl rfl rfl 4 (by omega) (by omega)
  exact absurd h (by decide)

/-- C7 as amended: a successful `set_item_at` touches only bytes
`index * 8 .. index * 8 + slotWidth` of the element storage, and the bytes in
that window depend only on the tag and the written value.  `slotWidth` is 8
for long, double and reference kinds, but only 4 for the narrow 32-bit kinds
(int family and float): the slot's upper 4 bytes keep their previous
contents instead of being overwritten. -/
theorem array_set_write_width (a : Arr.RArray) (i : Nat) (v : Value)
    (a2 : Arr.RArray) (h : Arr.set_item_at a i v = .ok a2) :
    (∀ addr, addr < i * 8 ∨ i * 8 + Arr.slotWidth a.elementsType ≤ addr →
      a2.mem addr = a.mem addr)
    ∧ (∀ addr, i * 8 ≤ addr → addr < i * 8 + Arr.slotWidth a.elementsType →
      a2.mem addr =
        Arr.encodeWord a.elementsType v / 256 ^ (addr - i * 8) % 256) := by
  obtain ⟨len, ty, mem⟩ := a
  simp only [Arr.set_item_at] at h
  split at h
  · exact Except.noConfusion h
  · cases ty with
    | Base b =>
      cases b <;> cases v <;>
        first
          | exact Except.noConfusion h
          | (injection h with h2
             subst h2
             exact ⟨fun addr ha => Arr.writeLE_outside _ _ _ _ _ ha,
               fun addr h1 h2 => Arr.writeLE_inside _ _ _ _ _ h1 h2⟩)
    | Object cid =>
      cases v <;>
        first
          | exact Except.noConfusion h
          | (injection h with h2
             subst h2
             exact ⟨fun addr ha => Arr.writeLE_outside _ _ _ _ _ ha,
               fun addr h1 h2 => Arr.writeLE_inside _ _ _ _ _ h1 h2⟩)
    | Array =>
      cases v <;>
        first
          | exact Except.noConfusion h
          | (injection h with h2
             subst h2
             exact ⟨fun addr ha => Arr.writeLE_outside _ _ _ _ _ ha,
               fun addr h1 h2 => Arr.writeLE_inside _ _ _ _ _ h1 h2⟩)

/-- Witness for C7 as amended: writing `Int 5` at index 0 of an int array
whose bytes are all 9 leaves the byte at slot offset 4 at its old value 9,
and sets the byte at offset 0 to the low byte of the encoded word. -/
theorem array_set_write_width_witness :
    Arr.writeLE (fun _ => 9) 0 4 (Arr.intToU32 5) 4 = 9
    ∧ Arr.writeLE (fun _ => 9) 0 4 (Arr.intToU32 5) 0 =
      Arr.encodeWord (.Base .Int) (Value.Int 5) / 256 ^ 0 % 256 := by
  have h := array_set_write_width ⟨1, .Base .Int, fun _ => 9⟩ 0 (Value.Int 5)
    ⟨1, .Base .Int, Arr.writeLE (fun _ => 9) 0 4 (Arr.intToU32 5)⟩ rfl
  exact ⟨h.1 4 (Or.inr (by decide)), h.2 0 (by decide) (by decide)⟩

namespace VmM

/-- Field types from `rjvm_reader::field_type::FieldType`. -/
inductive FieldType where
  | Base (b : BaseType)
  | Object (className : String)
  | Array (component : FieldType)
  deriving Repr, DecidableEq

/-- The VM's tagged value union in the flavour used by `vm.rs`, where an
array value carries its component field type and a shared reference to a
cell holding a vector of values (`Rc<RefCell<Vec<Value>>>`), modelled as an
index into the VM's array heap, and an object value is a shared object
reference, modelled as an index into the VM's object heap. -/
inductive VValue where
  | Int (v : Int)
  | Long (v : Int)
  | Float (bits : Nat)
  | Double (bits : Nat)
  | Object (ref : Nat)
  | Array (ft : FieldType) (ref : Nat)
  | Null
  deriving Repr, DecidableEq

/-- A method of a resolved class: the metadata `vm.rs` reads (name, type
descriptor, native flag). -/
structure Method where
  name : String
  descriptor : String
  isNative : Bool
  deriving Repr, DecidableEq

/-- A resolved class: the metadata `vm.rs` reads (identity, name, methods,
and the number of instance-field slots of its layout). -/
structure Class where
  id : Nat
  name : String
  numFields : Nat
  methods : List Method
  deriving Repr, DecidableEq

/-- `Class::find_method` (class metadata is external to the three sources;
modelled from the spec: lookup by name and type descriptor). -/
def find_method (c : Class) (name descriptor : String) : Option Method :=
  c.methods.find? (fun m => m.name == name && m.descriptor == descriptor)

/-- `ClassAndMethod`: an immutable binding of a resolved class to one of its
methods (`cls` stands for the source's `class` field, a reserved word
here). -/
structure ClassAndMethod where
  cls : Class
  method : Method
  deriving Repr, DecidableEq

/-- An allocated object: class identity plus field-slot values. -/
structure Obj where
  classId : Nat
  fields : List VValue
  deriving Repr, DecidableEq

/-- A call frame, seeded with the invoked method, receiver and arguments by
`CallStack::add_frame`. -/
structure Frame where
  cam : ClassAndMethod
  receiver : Option Nat
  args : List VValue
  deriving Repr, DecidableEq

/-- Modelled from the spec: the call-stack collaborator (`call_stack.rs` is
not among the sources).  `add_frame` fails when the depth limit is exceeded;
`pop_frame` fails on an empty stack.  The newest frame is stored first. -/
structure CallStack where
  maxDepth : Nat
  frames : List Frame
  deriving Repr, DecidableEq

/-- Modelled from the spec: `CallStack::add_frame`, which fails (depth
exceeded) and otherwise pushes one frame. -/
def add_frame (cs : CallStack) (cam : ClassAndMethod) (receiver : Option Nat)
    (args : List VValue) : Except VmError (Frame × CallStack) :=
  if cs.frames.length < cs.maxDepth then
    .ok (⟨cam, receiver, args⟩,
      { cs with frames := ⟨cam, receiver, args⟩ :: cs.frames })
  else
    .error .ValidationException

/-- Modelled from the spec: `CallStack::pop_frame`, which fails (`none`) when
no frame was pushed. -/
def pop_frame (cs : CallStack) : Option CallStack :=
  match cs.frames with
  | [] => none
  | _ :: rest => some { cs with frames := rest }

/-- `MethodCallFailed` from `exceptions.rs`: an internal VM error, or a
guest-visible exception carrying the thrown object reference. -/
inductive MethodCallFailed where
  | internalError (e : VmError)
  | exceptionThrown (ref : Nat)
  deriving Repr, DecidableEq

/-- `MethodCallResult` = `Result<Option<Value>, MethodCallFailed>`. -/
abbrev MethodCallResult := Except MethodCallFailed (Option VValue)

/-- A host-level panic (the source's `expect`), distinct from every error
result the VM returns. -/
inductive RPanic where
  | panicked
  deriving Repr, DecidableEq

/-- The VM state from `vm.rs`: the class manager's store of resolved classes,
the allocator's object heap, the array heap (the shared cells behind array
values), and the statics table. -/
structure Vm where
  classes : List Class
  heap : List Obj
  arrays : List (List VValue)
  statics : List (Nat × Nat)
  deriving Repr, DecidableEq

/-- `Vm::get_static_instance`: a `HashMap::get`, on an association list whose
head is the most recent insertion. -/
def get_static_instance (vm : Vm) (classId : Nat) : Option Nat :=
  (vm.statics.find? (fun p => p.1 == classId)).map Prod.snd

/-- `ClassManager::find_class_by_id`, modelled from the spec: a lookup with
no side effects. -/
def find_class_by_id (vm : Vm) (classId : Nat) : Option Class :=
  vm.classes.find? (fun c => c.id == classId)

/-- `ClassManager::find_class_by_name`, modelled from the spec: a lookup with
no side effects. -/
def find_class_by_name (vm : Vm) (name : String) : Option Class :=
  vm.classes.find? (fun c => c.name == name)

/-- `Vm::get_class_by_id`. -/
def get_class_by_id (vm : Vm) (classId : Nat) : Except VmError Class :=
  match find_class_by_id vm classId with
  | some c => .ok c
  | none => .error .ValidationException

/-- `Vm::new_object_of_class`: asks the allocator for a zero-initialized
instance sized per the class layout.  Modelled from the spec: the new object
gets all-null (all-zero) field slots, is appended to the object heap, and is
referred to by its heap index. -/
def new_object_of_class (vm : Vm) (c : Class) : Nat × Vm :=
  (vm.heap.length,
    { vm with heap := vm.heap ++ [⟨c.id, List.replicate c.numFields .Null⟩] })

/-- `Vm::get_or_resolve_class`, modelled from the spec for the
already-resolved path (`ClassManager` is not among the sources): a resolved
class is returned with no side effects; fresh resolution from the class path
is outside this model, so an unknown name fails with class-not-found. -/
def get_or_resolve_class (vm : Vm) (cs : CallStack) (name : String) :
    Except MethodCallFailed (Class × Vm × CallStack) :=
  match find_class_by_name vm name with
  | some c => .ok (c, vm, cs)
  | none => .error (.internalError (.ClassNotFoundException name))

/-- `Vm::new_object`: resolve, then allocate. -/
def new_object (vm : Vm) (cs : CallStack) (name : String) :
    Except MethodCallFailed (Nat × Vm × CallStack) :=
  match get_or_resolve_class vm cs name with
  | .error e => .error e
  | .ok (c, vm1, cs1) => .ok ((new_object_of_class vm1 c).1,
      (new_object_of_class vm1 c).2, cs1)

/-- Object field write (`AllocatedObject::set_field`; object storage is
external to the three sources, modelled from the spec as indexed slots).
`none` models the host panic on an invalid reference or slot index. -/
def set_field (vm : Vm) (oref fieldIndex : Nat) (v : VValue) : Option Vm :=
  match vm.heap.get? oref with
  | none => none
  | some obj =>
    if fieldIndex < obj.fields.length then
      let newObj : Obj := { obj with fields := obj.fields.set fieldIndex v }
      some { vm with heap := vm.heap.set oref newObj }
    else
      none

/-- Object field read (`AllocatedObject::get_field`), `none` modelling the
host panic on an invalid reference or slot index. -/
def get_field (vm : Vm) (oref fieldIndex : Nat) : Option VValue :=
  match vm.heap.get? oref with
  | none => none
  | some obj => obj.fields.get? fieldIndex

/-- The frame-executor contract (`CallFrame::execute` is not among the
sources): it receives the frame, the VM and the call stack and returns the
invocation result with the updated VM and call stack. -/
def ExecFn : Type :=
  Frame → Vm → CallStack → MethodCallResult × Vm × CallStack

/-- The native-methods registry contract: lookup of a host callback by
class-and-method. -/
def NativeRegistry : Type :=
  ClassAndMethod → Option (Vm → CallStack → Option Nat → List VValue →
    MethodCallResult × Vm × CallStack)

/-- `Vm::invoke_native`: registry lookup, callback invocation, and the
unresolved-native-method error when absent. -/
def invoke_native (natives : NativeRegistry) (vm : Vm) (cs : CallStack)
    (cam : ClassAndMethod) (receiver : Option Nat) (args : List VValue) :
    MethodCallResult × Vm × CallStack :=
  match natives cam with
  | some callback => callback vm cs receiver args
  | none => (.error (.internalError .NotImplemented), vm, cs)

/-- The tail of `Vm::invoke` after the frame executor returns: the
unconditional pop of the frame just pushed; a failing pop is the source's
`expect`, i.e. a host panic. -/
def afterExec (r : MethodCallResult × Vm × CallStack) :
    Except RPanic (MethodCallResult × Vm × CallStack) :=
  match pop_frame r.2.2 with
  | none => .error .panicked
  | some cs3 => .ok (r.1, r.2.1, cs3)

/-- `Vm::invoke`: native dispatch, or frame push + execute + unconditional
frame pop (on the success and the failure path of `execute` alike); a
failing `add_frame` is returned as an internal error with nothing pushed. -/
def invoke (natives : NativeRegistry) (exec : ExecFn) (vm : Vm)
    (cs : CallStack) (cam : ClassAndMethod) (receiver : Option Nat)
    (args : List VValue) :
    Except RPanic (MethodCallResult × Vm × CallStack) :=
  if cam.method.isNative then
    .ok (invoke_native natives vm cs cam receiver args)
  else
    match add_frame cs cam receiver args with
    | .error e => .ok (.error (.internalError e), vm, cs)
    | .ok (f, cs1) => afterExec (exec f vm cs1)

/-- The static-instance allocation step of `Vm::init_class`: allocate the
class's single static instance and record it in the statics table
(`HashMap::insert`, modelled as cons — lookups see the newest entry). -/
def staticAllocVm (vm : Vm) (c : Class) : Nat × Vm :=
  ((new_object_of_class vm c).1,
    { (new_object_of_class vm c).2 with
      statics := (c.id, (new_object_of_class vm c).1) ::
        (new_object_of_class vm c).2.statics })

/-- The result adaptation `Vm::init_class` performs on the `<clinit>`
invocation result (the `?` operator followed by `Ok(())`). -/
def clinitWrap (r : Except RPanic (MethodCallResult × Vm × CallStack)) :
    Except RPanic ((Except MethodCallFailed Unit) × Vm × CallStack) :=
  match r with
  | .error p => .error p
  | .ok (.error e, vm3, cs3) => .ok (.error e, vm3, cs3)
  | .ok (.ok _, vm3, cs3) => .ok (.ok (), vm3, cs3)

/-- `Vm::init_class`: allocate and record the static instance, then — if the
class declares one — invoke its `<clinit>` initializer with no receiver and
no arguments through the standard invocation path. -/
def init_class (natives : NativeRegistry) (exec : ExecFn) (vm : Vm)
    (cs : CallStack) (c : Class) :
    Except RPanic ((Except MethodCallFailed Unit) × Vm × CallStack) :=
  match find_method c "<clinit>" "()V" with
  | none => .ok (.ok (), (staticAllocVm vm c).2, cs)
  | some m =>
    clinitWrap (invoke natives exec (staticAllocVm vm c).2 cs ⟨c, m⟩ none [])

/-- Rust strings modelled as lists of Unicode scalar values. -/
abbrev RStr : Type := List Nat

/-- The scalar values of a Lean string literal (to spell concrete Rust
strings such as "Hi" in the model). -/
def strScalars (s : String) : RStr := s.data.map Char.toNat

/-- `str::encode_utf16`: one code unit below U+10000, else a surrogate
pair. -/
def encodeUtf16 : List Nat → List Nat
  | [] => []
  | c :: rest =>
    if c < 65536 then
      c :: encodeUtf16 rest
    else
      (55296 + (c - 65536) / 1024) :: (56320 + (c - 65536) % 1024) ::
        encodeUtf16 rest

/-- `String::from_utf8`: the validating UTF-8 decoder (`none` = invalid,
which the source turns into a panic via `expect`). -/
def utf8Decode : List Nat → Option (List Nat)
  | [] => some []
  | b :: rest =>
    if b < 128 then
      (utf8Decode rest).map (fun s => b :: s)
    else if b < 194 then
      none
    else if b < 224 then
      match rest with
      | b1 :: rest1 =>
        if 128 ≤ b1 ∧ b1 < 192 then
          (utf8Decode rest1).map (fun s => ((b - 192) * 64 + (b1 - 128)) :: s)
        else none
      | [] => none
    else if b < 240 then
      match rest with
      | b1 :: b2 :: rest2 =>
        if (128 ≤ b1 ∧ b1 < 192) ∧ (128 ≤ b2 ∧ b2 < 192)
            ∧ (b ≠ 224 ∨ 160 ≤ b1) ∧ (b ≠ 237 ∨ b1 < 160) then
          (utf8Decode rest2).map
            (fun s => ((b - 224) * 4096 + (b1 - 128) * 64 + (b2 - 128)) :: s)
        else none
      | _ => none
    else if b < 245 then
      match rest with
      | b1 :: b2 :: b3 :: rest3 =>
        if (128 ≤ b1 ∧ b1 < 192) ∧ (128 ≤ b2 ∧ b2 < 192)
            ∧ (128 ≤ b3 ∧ b3 < 192)
            ∧ (b ≠ 240 ∨ 144 ≤ b1) ∧ (b ≠ 244 ∨ b1 < 144) then
          (utf8Decode rest3).map
            (fun s => ((b - 240) * 262144 + (b1 - 128) * 4096
              + (b2 - 128) * 64 + (b3 - 128)) :: s)
        else none
      | _ => none
    else none

/-- The `c as u8` cast of an `i32`: its low 8 bits. -/
def intAsU8 (n : Int) : Nat := (n % 256).toNat

/-- The byte-collection loop of `extract_str_from_java_lang_string`: each
array element must be an `Int` (anything else is the source's "array items
should be chars" panic) and is cast `as u8`. -/
def collectBytes : List VValue → Option (List Nat)
  | [] => some []
  | .Int c :: rest => (collectBytes rest).map (fun bs => intAsU8 c :: bs)
  | _ => none

/-- `Vm::extract_str_from_java_lang_string`: validate that the object's
class is `java/lang/String`, read field 0 (the backing char array), collect
each element's low byte and decode the bytes as UTF-8.  `none` models a host
panic (invalid reference or slot, non-int element, invalid UTF-8);
`some (.error _)` the validation failures the source returns. -/
def extract_str_from_java_lang_string (vm : Vm) (oref : Nat) :
    Option (Except VmError RStr) :=
  match vm.heap.get? oref with
  | none => none
  | some obj =>
    match get_class_by_id vm obj.classId with
    | .error e => some (.error e)
    | .ok cls =>
      if cls.name = "java/lang/String" then
        match get_field vm oref 0 with
        | none => none
        | some (.Array _ aref) =>
          match vm.arrays.get? aref with
          | none => none
          | some items =>
            match collectBytes items with
            | none => none
            | some bytes =>
              match utf8Decode bytes with
              | none => none
              | some s => some (.ok s)
        | some _ => some (.error .ValidationException)
      else some (.error .ValidationException)

/-- `Vm::create_java_lang_string_instance`: encode the text as UTF-16 code
units stored as `Int` values, put them in a fresh char-tagged array cell,
allocate a `java/lang/String` instance, and directly set its backing-array
field (0), hash field (1) and hash32 field (6), bypassing constructors. -/
def create_java_lang_string_instance (vm : Vm) (cs : CallStack) (s : RStr) :
    Option (Except MethodCallFailed (Nat × Vm × CallStack)) :=
  let charValues := (encodeUtf16 s).map (fun c => VValue.Int (Int.ofNat c))
  let aref := vm.arrays.length
  let vmA := { vm with arrays := vm.arrays ++ [charValues] }
  match new_object vmA cs "java/lang/String" with
  | .error e => some (.error e)
  | .ok (oref, vm1, cs1) =>
    match set_field vm1 oref 0 (VValue.Array (.Base .Char) aref) with
    | none => none
    | some vm2 =>
      match set_field vm2 oref 1 (VValue.Int 0) with
      | none => none
      | some vm3 =>
        match set_field vm3 oref 6 (VValue.Int 0) with
        | none => none
        | some vm4 => some (.ok (oref, vm4, cs1))

end VmM

theorem add_frame_length (cs : VmM.CallStack) (cam : VmM.ClassAndMethod)
    (receiver : Option Nat) (args : List VmM.VValue) (f : VmM.Frame)
    (cs1 : VmM.CallStack)
    (h : VmM.add_frame cs cam receiver args = .ok (f, cs1)) :
    cs1.frames.length = cs.frames.length + 1 := by
  unfold VmM.add_frame at h
  split at h
  · injection h with h2
    rw [Prod.mk.injEq] at h2
    obtain ⟨h3, h4⟩ := h2
    subst h4
    simp
  · exact Except.noConfusion h

theorem pop_frame_of_length_succ (c : VmM.CallStack) (n : Nat)
    (h : c.frames.length = n + 1) :
    ∃ c', VmM.pop_frame c = some c' ∧ c'.frames.length = n := by
  unfold VmM.pop_frame
  cases hcf : c.frames with
  | nil => rw [hcf] at h; simp at h
  | cons fh ft =>
    refine ⟨{ c with frames := ft }, rfl, ?_⟩
    rw [hcf] at h
    simp at h ⊢
    omega

/-- C1: for a non-native method, `invoke` returns without panicking and the
call-stack depth after it equals the depth before it, on both success and
failure of the frame's `execute`; when `add_frame` itself fails, the call
stack is returned untouched and the failure becomes the result.  The
hypothesis on `exec` is the frame-executor contract: a returned `execute`
has itself popped every frame of the nested invocations it performed. -/
theorem invoke_frame_balance (natives : VmM.NativeRegistry)
    (exec : VmM.ExecFn) (vm : VmM.Vm) (cs : VmM.CallStack)
    (cam : VmM.ClassAndMethod) (receiver : Option Nat)
    (args : List VmM.VValue)
    (hn : cam.method.isNative = false)
    (hexec : ∀ f v c, ((exec f v c).2.2).frames.length = c.frames.length) :
    ∃ res vm2 cs2,
      VmM.invoke natives exec vm cs cam receiver args = .ok (res, vm2, cs2)
      ∧ cs2.frames.length = cs.frames.length
      ∧ (∀ e, VmM.add_frame cs cam receiver args = .error e →
          cs2 = cs ∧ res = .error (.internalError e)) := by
  cases hadd : VmM.add_frame cs cam receiver args with
  | error e =>
    refine ⟨.error (.internalError e), vm, cs, ?_, rfl, ?_⟩
    · simp [VmM.invoke, hn, hadd]
    · intro e2 he2
      injection he2 with h3
      subst h3
      exact ⟨rfl, rfl⟩
  | ok fc =>
    obtain ⟨f, cs1⟩ := fc
    have hlen1 : cs1.frames.length = cs.frames.length + 1 :=
      add_frame_length cs cam receiver args f cs1 hadd
    have hlen2 : ((exec f vm cs1).2.2).frames.length =
        cs.frames.length + 1 := by
      rw [hexec f vm cs1, hlen1]
    obtain ⟨cs3, hpop, hlen3⟩ :=
      pop_frame_of_length_succ ((exec f vm cs1).2.2) cs.frames.length hlen2
    refine ⟨(exec f vm cs1).1, (exec f vm cs1).2.1, cs3, ?_, hlen3, ?_⟩
    · simp [VmM.invoke, hn, hadd, VmM.afterExec, hpop]
    · intro e2 he2
      exact Except.noConfusion he2

/-- Witness for C1: a concrete non-native invocation on an empty call stack
of depth limit 4, with a trivially returning executor. -/
theorem invoke_frame_balance_witness :
    ∃ res vm2 cs2,
      VmM.invoke (fun _ => none) (fun _ v c => (.ok none, v, c))
        ⟨[], [], [], []⟩ ⟨4, []⟩ ⟨⟨0, "A", 0, []⟩, ⟨"m", "()V", false⟩⟩
        none []
        = .ok (res, vm2, cs2)
      ∧ cs2.frames.length = (⟨4, []⟩ : VmM.CallStack).frames.length
      ∧ (∀ e, VmM.add_frame ⟨4, []⟩ ⟨⟨0, "A", 0, []⟩, ⟨"m", "()V", false⟩⟩
          none [] = .error e →
          cs2 = ⟨4, []⟩ ∧ res = .error (.internalError e)) :=
  invoke_frame_balance (fun _ => none) (fun _ v c => (.ok none, v, c))
    ⟨[], [], [], []⟩ ⟨4, []⟩ ⟨⟨0, "A", 0, []⟩, ⟨"m", "()V", false⟩⟩ none []
    rfl (fun _ _ _ => rfl)

/-- C2: `init_class` allocates the class's static instance and records it in
the statics table strictly before invoking `<clinit>`: the statics lookup on
the intermediate state already yields the fresh instance, the whole of
`init_class` is exactly the `<clinit>` invocation run from that state, and —
for a non-native `<clinit>` whose frame is accepted — the initializer body
`exec` receives exactly that state, in which the lookup of its own class
succeeds. -/
theorem init_class_static_before_clinit (natives : VmM.NativeRegistry)
    (exec : VmM.ExecFn) (vm : VmM.Vm) (cs : VmM.CallStack) (c : VmM.Class) :
    VmM.get_static_instance (VmM.staticAllocVm vm c).2 c.id =
      some (VmM.staticAllocVm vm c).1
    ∧ (∀ m, VmM.find_method c "<clinit>" "()V" = some m →
        VmM.init_class natives exec vm cs c =
          VmM.clinitWrap (VmM.invoke natives exec (VmM.staticAllocVm vm c).2
            cs ⟨c, m⟩ none []))
    ∧ (∀ m f cs1, VmM.find_method c "<clinit>" "()V" = some m →
        m.isNative = false →
        VmM.add_frame cs ⟨c, m⟩ none [] = .ok (f, cs1) →
        VmM.init_class natives exec vm cs c =
          VmM.clinitWrap (VmM.afterExec
            (exec f (VmM.staticAllocVm vm c).2 cs1))) := by
  refine ⟨?_, ?_, ?_⟩
  · simp [VmM.get_static_instance, VmM.staticAllocVm,
      VmM.new_object_of_class]
  · intro m hm
    simp [VmM.init_class, hm]
  · intro m f cs1 hm hnat hadd
    simp [VmM.init_class, hm, VmM.invoke, hnat, hadd]

/-- Witness for C2: a concrete class (id 7) declaring a non-native
`<clinit>`, initialized on an empty VM with an empty call stack of depth
limit 4 and a trivially returning executor. -/
theorem init_class_static_before_clinit_witness :
    VmM.get_static_instance
      (VmM.staticAllocVm ⟨[], [], [], []⟩
        ⟨7, "C", 2, [⟨"<clinit>", "()V", false⟩]⟩).2 7
      = some (VmM.staticAllocVm ⟨[], [], [], []⟩
        ⟨7, "C", 2, [⟨"<clinit>", "()V", false⟩]⟩).1
    ∧ VmM.init_class (fun _ => none) (fun _ v c => (.ok none, v, c))
        ⟨[], [], [], []⟩ ⟨4, []⟩ ⟨7, "C", 2, [⟨"<clinit>", "()V", false⟩]⟩
      = VmM.clinitWrap (VmM.invoke (fun _ => none)
          (fun _ v c => (.ok none, v, c))
          (VmM.staticAllocVm ⟨[], [], [], []⟩
            ⟨7, "C", 2, [⟨"<clinit>", "()V", false⟩]⟩).2
          ⟨4, []⟩ ⟨⟨7, "C", 2, [⟨"<clinit>", "()V", false⟩]⟩,
            ⟨"<clinit>", "()V", false⟩⟩ none [])
    ∧ VmM.init_class (fun _ => none) (fun _ v c => (.ok none, v, c))
        ⟨[], [], [], []⟩ ⟨4, []⟩ ⟨7, "C", 2, [⟨"<clinit>", "()V", false⟩]⟩
      = VmM.clinitWrap (VmM.afterExec
          (.ok none,
            (VmM.staticAllocVm ⟨[], [], [], []⟩
              ⟨7, "C", 2, [⟨"<clinit>", "()V", false⟩]⟩).2,
            ⟨4, [⟨⟨⟨7, "C", 2, [⟨"<clinit>", "()V", false⟩]⟩,
              ⟨"<clinit>", "()V", false⟩⟩, none, []⟩]⟩)) := by
  have h := init_class_static_before_clinit (fun _ => none)
    (fun _ v c => (.ok none, v, c)) ⟨[], [], [], []⟩ ⟨4, []⟩
    ⟨7, "C", 2, [⟨"<clinit>", "()V", false⟩]⟩
  exact ⟨h.1, h.2.1 ⟨"<clinit>", "()V", false⟩ (by decide),
    h.2.2 ⟨"<clinit>", "()V", false⟩
      ⟨⟨⟨7, "C", 2, [⟨"<clinit>", "()V", false⟩]⟩,
        ⟨"<clinit>", "()V", false⟩⟩, none, []⟩
      ⟨4, [⟨⟨⟨7, "C", 2, [⟨"<clinit>", "()V", false⟩]⟩,
        ⟨"<clinit>", "()V", false⟩⟩, none, []⟩]⟩
      (by decide) rfl (by decide)⟩

theorem getConcat {α : Type} (l : List α) (x : α) :
    (l ++ [x]).get? l.length = some x := by
  induction l with
  | nil => rfl
  | cons h t ih => simp [ih]

theorem setConcat {α : Type} (l : List α) (x y : α) :
    (l ++ [x]).set l.length y = l ++ [y] := by
  induction l with
  | nil => rfl
  | cons h t ih => simp [ih]

/-- C9: on a VM whose class manager resolves `java/lang/String` (consistently
by name and by id) to a class with the expected 7-slot field layout, building
a string instance from "Hi" and then extracting it yields exactly "Hi". -/
theorem create_then_extract_hi (vm : VmM.Vm) (cs : VmM.CallStack)
    (cls : VmM.Class)
    (hname : VmM.find_class_by_name vm "java/lang/String" = some cls)
    (hcls : cls.name = "java/lang/String")
    (hfields : cls.numFields = 7)
    (hid : VmM.find_class_by_id vm cls.id = some cls) :
    ∃ oref vm4,
      VmM.create_java_lang_string_instance vm cs (VmM.strScalars "Hi") =
        some (.ok (oref, vm4, cs))
      ∧ VmM.extract_str_from_java_lang_string vm4 oref =
        some (.ok (VmM.strScalars "Hi")) := by
  have hhi : VmM.strScalars "Hi" = [72, 105] := by decide
  have hname2 : vm.classes.find?
      (fun cl => cl.name == "java/lang/String") = some cls := hname
  have hid2 : vm.classes.find? (fun cl => cl.id == cls.id) = some cls := hid
  have hrep : List.replicate 7 VmM.VValue.Null =
      [.Null, .Null, .Null, .Null, .Null, .Null, .Null] := rfl
  have hb1 : VmM.intAsU8 72 = 72 := by decide
  have hb2 : VmM.intAsU8 105 = 105 := by decide
  have hdec : VmM.utf8Decode [72, 105] = some [72, 105] := by decide
  rw [hhi]
  refine ⟨vm.heap.length,
    { vm with
      heap := vm.heap ++
        [⟨cls.id, [VmM.VValue.Array (.Base .Char) vm.arrays.length,
          .Int (Int.ofNat 0), .Null, .Null, .Null, .Null,
          .Int (Int.ofNat 0)]⟩],
      arrays := vm.arrays ++
        [[.Int (Int.ofNat 72), .Int (Int.ofNat 105)]] }, ?_, ?_⟩
  · simp [VmM.create_java_lang_string_instance, VmM.encodeUtf16,
      VmM.new_object, VmM.get_or_resolve_class, VmM.find_class_by_name,
      VmM.new_object_of_class, VmM.set_field, hname2, hfields, hrep,
      getConcat, setConcat]
  · simp [VmM.extract_str_from_java_lang_string, VmM.get_class_by_id,
      VmM.find_class_by_id, VmM.get_field, VmM.collectBytes,
      hid2, hcls, getConcat, hb1, hb2, hdec]

/-- Witness for C9: the round trip on a concrete VM holding only the
`java/lang/String` class (id 0, 7 field slots). -/
theorem create_then_extract_hi_witness :
    ∃ oref vm4,
      VmM.create_java_lang_string_instance
        ⟨[⟨0, "java/lang/String", 7, []⟩], [], [], []⟩ ⟨4, []⟩
        (VmM.strScalars "Hi") = some (.ok (oref, vm4, ⟨4, []⟩))
      ∧ VmM.extract_str_from_java_lang_string vm4 oref =
        some (.ok (VmM.strScalars "Hi")) :=
  create_then_extract_hi ⟨[⟨0, "java/lang/String", 7, []⟩], [], [], []⟩
    ⟨4, []⟩ ⟨0, "java/lang/String", 7, []⟩ (by decide) (by decide) (by decide)
    (by decide)
